import Mathlib

/-!
Verification of the evosax core against its specification.

The Python sources are shallowly embedded: `jax.numpy` arrays become `List`s
over an exact linearly ordered field (`ℚ` where the computation is rational,
`ℝ` where `sqrt`/`exp` appear), randomness becomes explicit oracle draws
(the uniform/normal samples that `jax.random` would produce from the key),
and Python exceptions become `Except` values.
-/

namespace Evosax

/-! ## Numeric list helpers (jax.numpy primitives)

The model carries no NaNs, so the `nan*` reductions coincide with the plain
reductions; the names keep the `jnp` spelling used by the source.
-/

/-- `jnp.nanmean` over a 1-d array without NaNs: sum divided by length. -/
def nanmean {α : Type} [LinearOrderedField α] (l : List α) : α :=
  l.sum / (l.length : α)

/-- `jnp.nanmin` over a 1-d array without NaNs (empty input is out of model). -/
def nanmin {α : Type} [LinearOrderedField α] (l : List α) : α :=
  match l with
  | [] => 0
  | x :: xs => xs.foldl min x

/-- `jnp.nanmax` over a 1-d array without NaNs (empty input is out of model). -/
def nanmax {α : Type} [LinearOrderedField α] (l : List α) : α :=
  match l with
  | [] => 0
  | x :: xs => xs.foldl max x

/-- `jnp.clip(x, lo, hi)` on a scalar. -/
def clip {α : Type} [LinearOrderedField α] (x lo hi : α) : α :=
  min (max x lo) hi

/-- The literal `1e-10` used as epsilon guard throughout the source. -/
def eps10 {α : Type} [LinearOrderedField α] : α :=
  1 / 10 ^ (10 : ℕ)

/-- The literal `1e10` used as the finite clamping bound in the source. -/
def big10 {α : Type} [LinearOrderedField α] : α :=
  10 ^ (10 : ℕ)

/-- The total order on indices that a stable sort of the values of `l`
realises: compare the pointed-to values, break ties by index. -/
def argsortRel {α : Type} [LinearOrderedField α] (l : List α) (i j : ℕ) : Prop :=
  l.getD i 0 < l.getD j 0 ∨ (l.getD i 0 = l.getD j 0 ∧ i ≤ j)

instance argsortRelDecidable {α : Type} [LinearOrderedField α] (l : List α) :
    DecidableRel (argsortRel l) := fun i j => by
  unfold argsortRel; infer_instance

instance argsortRelIsTotal {α : Type} [LinearOrderedField α] (l : List α) :
    IsTotal ℕ (argsortRel l) where
  total i j := by
    unfold argsortRel
    rcases lt_trichotomy (l.getD i 0) (l.getD j 0) with h | h | h
    · exact Or.inl (Or.inl h)
    · rcases le_total i j with hij | hij
      · exact Or.inl (Or.inr ⟨h, hij⟩)
      · exact Or.inr (Or.inr ⟨h.symm, hij⟩)
    · exact Or.inr (Or.inl h)

instance argsortRelIsTrans {α : Type} [LinearOrderedField α] (l : List α) :
    IsTrans ℕ (argsortRel l) where
  trans a b c hab hbc := by
    unfold argsortRel at hab hbc ⊢
    rcases hab with h1 | ⟨e1, le1⟩
    · rcases hbc with h2 | ⟨e2, _⟩
      · exact Or.inl (h1.trans h2)
      · exact Or.inl (e2 ▸ h1)
    · rcases hbc with h2 | ⟨e2, le2⟩
      · exact Or.inl (by rw [e1]; exact h2)
      · exact Or.inr ⟨e1.trans e2, le1.trans le2⟩

/-- `jnp.argsort` (stable): the indices `0, …, n-1` sorted by the value they
point to, ties broken by index. -/
def argsort {α : Type} [LinearOrderedField α] (l : List α) : List ℕ :=
  List.insertionSort (argsortRel l) (List.range l.length)

/-- `arr.at[indices].set(vals)`: functional scatter update of `base`,
writing `vals[k]` at position `indices[k]` for each `k` in order. -/
def scatterSet (base : List ℕ) (indices vals : List ℕ) : List ℕ :=
  (indices.zip vals).foldl (fun acc p => acc.set p.1 p.2) base

/-! ## src/evosax/core/fitness.py -/

/-- `ranksort` from `core/fitness.py`: `idx = argsort(fitness)` followed by the
inverse-permutation scatter `idx.at[idx].set(arange(fitness.size))`. -/
def ranksort {α : Type} [LinearOrderedField α] (fitness : List α) : List ℕ :=
  let idx := argsort fitness
  scatterSet idx idx (List.range fitness.length)

/-- `centered_rank_trafo` from `core/fitness.py`: ranks divided by
`fitness.size - 1` (Python integer arithmetic, then true division), minus 0.5. -/
def centered_rank_trafo {α : Type} [LinearOrderedField α] (fitness : List α) : List α :=
  (ranksort fitness).map
    (fun r : ℕ => (r : α) / (((fitness.length : ℤ) - 1 : ℤ) : α) - 1 / 2)

/-- `compute_l2_norm` from `core/fitness.py`: per-member mean of squared
parameters, `jnp.nanmean(solution * solution, axis=-1)`. -/
def compute_l2_norm {α : Type} [LinearOrderedField α] (solution : List (List α)) : List α :=
  solution.map (fun x => nanmean (x.map (fun v => v * v)))

/-- `jnp.nanstd`: population standard deviation (square root of the mean
squared deviation from the mean). -/
noncomputable def nanstd (arr : List ℝ) : ℝ :=
  Real.sqrt (nanmean (arr.map (fun x => (x - nanmean arr) ^ 2)))

/-- `z_score_trafo` from `core/fitness.py`: subtract the mean, divide by the
standard deviation plus `1e-10`. -/
noncomputable def z_score_trafo (arr : List ℝ) : List ℝ :=
  arr.map (fun x => (x - nanmean arr) / (nanstd arr + eps10))

/-- `range_norm_trafo` from `core/fitness.py`: clamp to `[-1e10, 1e10]`, then
affinely map onto `[min_val, max_val]` using the array min/max with a `1e-10`
guard on the denominator. -/
def range_norm_trafo {α : Type} [LinearOrderedField α]
    (arr : List α) (min_val max_val : α) : List α :=
  let arr := arr.map (fun x => clip x (-big10) big10)
  arr.map (fun x =>
    (max_val - min_val) * (x - nanmin arr) / (nanmax arr - nanmin arr + eps10) + min_val)

/-- The configuration record a successfully constructed `FitnessShaper` holds. -/
structure FitnessShaper where
  centered_rank : Bool
  z_score : Bool
  norm_range : Bool
  w_decay : ℝ
  maximize : Bool

/-- `FitnessShaper.__init__`: the `fitness_trafo` string, when it is one of the
four recognised selectors, decides the three transform flags and the boolean
arguments are ignored; otherwise the booleans are used.  The trailing `assert`
rejects configurations with two or more transform flags enabled, modelled as
an `Except.error`. -/
def FitnessShaper.make (centered_rank z_score norm_range : Bool) (w_decay : ℝ)
    (maximize : Bool) (fitness_trafo : Option String) : Except String FitnessShaper :=
  let flags : Bool × Bool × Bool :=
    if fitness_trafo ∈ [some "centered_rank", some "z_score", some "norm_range", some "raw"] then
      (fitness_trafo == some "centered_rank", fitness_trafo == some "z_score",
        fitness_trafo == some "norm_range")
    else
      (centered_rank, z_score, norm_range)
  let num_options_on := flags.1.toNat + flags.2.1.toNat + flags.2.2.toNat
  if num_options_on < 2 then
    Except.ok ⟨flags.1, flags.2.1, flags.2.2, w_decay, maximize⟩
  else
    Except.error "Only use one fitness shaping transformation."

/-- `FitnessShaper.apply`: negate if maximizing, add the weight-decay penalty
when `w_decay > 0`, then run the (at most one) enabled transform, in the
source's textual order. -/
noncomputable def FitnessShaper.apply (s : FitnessShaper)
    (population : List (List ℝ)) (fitness : List ℝ) : List ℝ :=
  let fitness := if s.maximize then fitness.map (fun x => -1 * x) else fitness
  let fitness := if 0 < s.w_decay then
      List.zipWith (· + ·) fitness ((compute_l2_norm population).map (fun v => s.w_decay * v))
    else fitness
  let fitness := if s.centered_rank then centered_rank_trafo fitness else fitness
  let fitness := if s.z_score then z_score_trafo fitness else fitness
  let fitness := if s.norm_range then range_norm_trafo fitness (-1) 1 else fitness
  fitness

/-! ## Spec-side composition of the fitness-shaping steps -/

/-- Spec step (1): negate the fitness if `maximize` is set. -/
def shaperStep1 (maximize : Bool) (fitness : List ℝ) : List ℝ :=
  if maximize then fitness.map (fun x => -1 * x) else fitness

/-- Spec step (2): when `w_decay > 0`, add `w_decay * mean(solution_i^2)` to
each member's fitness. -/
noncomputable def shaperStep2 (w_decay : ℝ) (population : List (List ℝ))
    (fitness : List ℝ) : List ℝ :=
  if 0 < w_decay then
    List.zipWith (· + ·) fitness ((compute_l2_norm population).map (fun v => w_decay * v))
  else fitness

/-- Spec step (3): the single enabled transform among centered-rank, z-score
and range normalization, if any. -/
noncomputable def shaperStep3 (s : FitnessShaper) (fitness : List ℝ) : List ℝ :=
  if s.centered_rank then centered_rank_trafo fitness
  else if s.z_score then z_score_trafo fitness
  else if s.norm_range then range_norm_trafo fitness (-1) 1
  else fitness

/-! ## src/evosax/strategies/simple_ga.py -/

/-- `jnp.cumsum`: entry `i` is the sum of the first `i + 1` elements. -/
def cumsum {α : Type} [LinearOrderedField α] (l : List α) : List α :=
  (List.range l.length).map (fun i => (l.take (i + 1)).sum)

/-- One output element of `jax.random.choice(key, a, shape, p)` (sampling with
replacement): normalise the weights to probabilities and return the first
index whose cumulative probability exceeds the uniform draw `u ∈ [0, 1)`. -/
def choiceIndex {α : Type} [LinearOrderedField α] (weights : List α) (u : α) : ℕ :=
  (cumsum (weights.map (fun w => w / weights.sum))).findIdx (fun c => decide (u < c))

/-- Modelled from the spec: `num_elites = elite_ratio * population_size` (the
`Strategy` base class that defines `num_elites` is not among the sources). -/
def numElites (elite_ratio : ℚ) (population_size : ℕ) : ℕ :=
  Nat.floor (elite_ratio * (population_size : ℚ))

/-- The `SimpleGA`-specific search state (`State` in `simple_ga.py`). -/
structure GAState where
  population : List (List ℚ)
  fitness : List ℚ
  std : ℚ
  deriving DecidableEq

/-- The `SimpleGA` hyperparameters (`Params` in `simple_ga.py`). -/
structure GAParams where
  crossover_rate : ℚ
  std_init : ℚ
  std_decay : ℚ
  std_limit : ℚ
  deriving DecidableEq

/-- Three-way `List.zipWith` (the shape-aligned `jax.vmap` over three arrays). -/
def zipWith3 {α β γ δ : Type} (f : α → β → γ → δ) : List α → List β → List γ → List δ
  | a :: as, b :: bs, c :: cs => f a b c :: zipWith3 f as bs cs
  | _, _, _ => []

/-- `crossover` from `simple_ga.py`: the per-gene mask is `uniform < rate`,
and the child is `parent_1 * (1 - mask) + parent_2 * mask`.  The key argument
is modelled by the per-gene uniform draws it would produce. -/
def crossover (uniforms parent_1 parent_2 : List ℚ) (crossover_rate : ℚ) : List ℚ :=
  zipWith3 (fun u p1 p2 =>
    let mask : ℚ := if u < crossover_rate then 1 else 0
    p1 * (1 - mask) + p2 * mask) uniforms parent_1 parent_2

/-- `mutation` from `simple_ga.py`: `solution + std * N(0, 1)` per gene.  The
key argument is modelled by the normal draws it would produce. -/
def mutation (normals solution : List ℚ) (std : ℚ) : List ℚ :=
  List.zipWith (fun x n => x + std * n) solution normals

/-- The random draws `SimpleGA._ask` extracts from its key: per-offspring
per-gene crossover uniforms and mutation normals, and one parent-selection
uniform per offspring for each of the two parent draws. -/
structure GAAskDraws where
  crossover_uniforms : List (List ℚ)
  mutation_normals : List (List ℚ)
  parent_1_uniforms : List ℚ
  parent_2_uniforms : List ℚ
  deriving DecidableEq

/-- `SimpleGA._ask`: sort the population ascending by fitness, build the
elite probability mask `p = arange(population_size) < num_elites`, draw two
parents per offspring from it, apply uniform crossover and then Gaussian
mutation.  The key is modelled by `GAAskDraws`. -/
def SimpleGA.ask (population_size : ℕ) (elite_ratio : ℚ) (draws : GAAskDraws)
    (state : GAState) (params : GAParams) : List (List ℚ) × GAState :=
  let idx := argsort state.fitness
  let population := idx.map (fun i => state.population.getD i [])
  let p : List ℚ := (List.range population_size).map
    (fun i => if i < numElites elite_ratio population_size then 1 else 0)
  let parents_1 := draws.parent_1_uniforms.map
    (fun u => population.getD (choiceIndex p u) [])
  let parents_2 := draws.parent_2_uniforms.map
    (fun u => population.getD (choiceIndex p u) [])
  let population := zipWith3
    (fun k p1 p2 => crossover k p1 p2 params.crossover_rate)
    draws.crossover_uniforms parents_1 parents_2
  let population := List.zipWith (fun k x => mutation k x state.std)
    draws.mutation_normals population
  (population, state)

/-- `SimpleGA._tell`: store the evaluated population and fitness, decay `std`
with its floor (`jnp.clip(std * std_decay, min=std_limit)`).  The key argument
is unused by the source and omitted. -/
def SimpleGA.tell (population : List (List ℚ)) (fitness : List ℚ)
    (state : GAState) (params : GAParams) : GAState :=
  { population := population
    fitness := fitness
    std := max (state.std * params.std_decay) params.std_limit }

/-! ## src/evosax/strategies/sim_anneal.py -/

/-- The `SimAnneal`-specific search state (`State` in `sim_anneal.py`). -/
structure SAState where
  current_solution : List ℝ
  current_fitness : ℝ
  std : ℝ
  temperature : ℝ

/-- The `SimAnneal` hyperparameters (`Params` in `sim_anneal.py`). -/
structure SAParams where
  std_init : ℝ
  std_decay : ℝ
  std_limit : ℝ
  temperature_init : ℝ
  temperature_limit : ℝ
  temperature_decay : ℝ
  boltzmann_constant : ℝ

/-- `jnp.argmin`: the first index attaining the minimum value. -/
def argminIdx {α : Type} [LinearOrderedField α] (l : List α) : ℕ :=
  l.findIdx (fun x => decide (x = nanmin l))

/-- `SimAnneal._ask`: `population = current_solution + std * z` with
`z ~ N(0, I)` of shape `(population_size, num_dims)`; the key is modelled by
the normal draws `z` it would produce. -/
def SimAnneal.ask (z : List (List ℝ)) (state : SAState) (params : SAParams) :
    List (List ℝ) × SAState :=
  (z.map (fun zi => List.zipWith (fun c v => c + state.std * v) state.current_solution zi),
    state)

/-- `SimAnneal._tell`: find the generation's best member and fitness, form
`delta` and the Metropolis quantity, replace the incumbent when `delta < 0`
or the uniform draw beats the Metropolis quantity, and always decay `std` and
`temperature` toward their floors.  The key is modelled by the single uniform
draw `acceptance` it produces. -/
noncomputable def SimAnneal.tell (acceptance : ℝ) (population : List (List ℝ))
    (fitness : List ℝ) (state : SAState) (params : SAParams) : SAState :=
  let best_idx := argminIdx fitness
  let best_member := population.getD best_idx []
  let best_fitness := fitness.getD best_idx 0
  let delta := best_fitness - state.current_fitness
  let metropolis := Real.exp (-delta / (params.boltzmann_constant * state.temperature))
  let replace : Prop := delta < 0 ∨ acceptance < metropolis
  { current_solution := if replace then best_member else state.current_solution
    current_fitness := if replace then best_fitness else state.current_fitness
    std := max (state.std * params.std_decay) params.std_limit
    temperature := max (state.temperature * params.temperature_decay)
      params.temperature_limit }

/-! ## src/evosax/learned_evolution/les_tools.py -/

/-- Modelled from the spec: `centered_rank`, imported by `les_tools.py` from
the absent `fitness_shaping` module; per the spec it is the centered-rank
transform of §4.1. -/
noncomputable def centered_rank (fitness : List ℝ) : List ℝ :=
  centered_rank_trafo fitness

/-- Modelled from the spec: `standardize`, imported by `les_tools.py` from the
absent `fitness_shaping` module; per the spec it is the z-score transform of
§4.1. -/
noncomputable def standardize (fitness : List ℝ) : List ℝ :=
  z_score_trafo fitness

/-- Modelled from the spec: `normalize`, imported by `les_tools.py` from the
absent `fitness_shaping` module; per the spec it is the range normalization of
§4.1. -/
noncomputable def normalize (fitness : List ℝ) (min_val max_val : ℝ) : List ℝ :=
  range_norm_trafo fitness min_val max_val

/-- Modelled from the spec: `l2_norm_sq`, imported by `les_tools.py` from the
absent `fitness_shaping` module; per the spec it is the L2 penalty (per-member
mean of squared parameters) of §4.1. -/
noncomputable def l2_norm_sq (x : List (List ℝ)) : List ℝ :=
  compute_l2_norm x

/-- `norm_diff_best` from `les_tools.py`.  The source denominator is
`jnp.nanmax(diff_best) - jnp.nanmin(diff_best.min) + 1e-10`, where
`diff_best.min` is the *bound method* of the array rather than the array
itself; `jnp.nanmin` of a method object raises a `TypeError`, so every call
fails before producing a value. -/
def norm_diff_best (fitness : List ℝ) (best_fitness : ℝ) : Except String (List ℝ) :=
  Except.error "TypeError: nanmin requires ndarray or scalar arguments, got a bound method"

/-- Modelled from the spec: the intended best-difference column — fitness
clipped to the finite range, minus `best_fitness`, scale-normalized by the
range of those differences (with the `1e-10` guard) and clipped to `[-1, 1]`. -/
noncomputable def norm_diff_best_spec (fitness : List ℝ) (best_fitness : ℝ) : List ℝ :=
  let fitness := fitness.map (fun x => clip x (-big10) big10)
  let diff_best := fitness.map (fun x => x - best_fitness)
  diff_best.map (fun d =>
    clip (d / (nanmax diff_best - nanmin diff_best + eps10)) (-1) 1)

/-- The `FitnessFeatures` configuration (`__init__` arguments, stored as-is). -/
structure FitnessFeatures where
  centered_rank : Bool
  z_score : Bool
  w_decay : ℝ
  diff_best : Bool
  norm_range : Bool
  maximize : Bool

/-- `FitnessFeatures.apply` from `les_tools.py`: the feature matrix, given as
the list of its columns in construction order.  The first column is the binary
improvement indicator `(fitness < best_fitness) * 1.0`; each enabled option
appends one column, in the source's textual order.  The `diff_best` branch
calls the failing `norm_diff_best`, so the whole application errors whenever
`diff_best` is enabled (Python truthiness turns `w_decay` into the test
`w_decay ≠ 0`). -/
noncomputable def FitnessFeatures.apply (c : FitnessFeatures) (x : List (List ℝ))
    (fitness : List ℝ) (best_fitness : ℝ) : Except String (List (List ℝ)) :=
  let fitness := if c.maximize then fitness.map (fun v => -1 * v) else fitness
  let fit_out : List (List ℝ) :=
    [fitness.map (fun v => if v < best_fitness then 1 else 0)]
  let fit_out := if c.centered_rank then fit_out ++ [Evosax.centered_rank fitness]
    else fit_out
  let fit_out := if c.z_score then fit_out ++ [Evosax.standardize fitness] else fit_out
  (if c.diff_best then
      (Evosax.norm_diff_best fitness best_fitness).map (fun cols => fit_out ++ [cols])
    else Except.ok fit_out).map (fun fit_out =>
      let fit_out := if c.norm_range then fit_out ++ [Evosax.normalize fitness (-1) 1]
        else fit_out
      if c.w_decay ≠ 0 then fit_out ++ [Evosax.l2_norm_sq x] else fit_out)

/-! ## Helper lemmas -/

theorem foldl_min_le_init {α : Type} [LinearOrder α] (xs : List α) (a : α) :
    xs.foldl min a ≤ a := by
  induction xs generalizing a with
  | nil => simp
  | cons y ys ih => exact le_trans (ih (min a y)) (min_le_left a y)

theorem foldl_min_le_mem {α : Type} [LinearOrder α] (xs : List α) (a : α) :
    ∀ x ∈ xs, xs.foldl min a ≤ x := by
  induction xs generalizing a with
  | nil => simp
  | cons y ys ih =>
    intro x hx
    rcases List.mem_cons.mp hx with h | h
    · rw [h]
      exact le_trans (foldl_min_le_init ys (min a y)) (min_le_right a y)
    · exact ih (min a y) x h

theorem foldl_min_mem {α : Type} [LinearOrder α] (xs : List α) (a : α) :
    xs.foldl min a = a ∨ xs.foldl min a ∈ xs := by
  induction xs generalizing a with
  | nil => exact Or.inl rfl
  | cons y ys ih =>
    rcases ih (min a y) with h | h
    · rcases min_choice a y with hc | hc
      · exact Or.inl (by rw [List.foldl_cons, h, hc])
      · exact Or.inr (by rw [List.foldl_cons, h, hc]; exact List.mem_cons_self y ys)
    · exact Or.inr (List.mem_cons_of_mem y h)

theorem nanmin_le {α : Type} [LinearOrderedField α] :
    ∀ (l : List α), ∀ x ∈ l, nanmin l ≤ x
  | [], x, hx => absurd hx (List.not_mem_nil x)
  | y :: ys, x, hx => by
    rcases List.mem_cons.mp hx with h | h
    · subst h
      exact foldl_min_le_init ys x
    · exact foldl_min_le_mem ys y x h

theorem nanmin_mem {α : Type} [LinearOrderedField α] :
    ∀ (l : List α), l ≠ [] → nanmin l ∈ l
  | [], h => absurd rfl h
  | y :: ys, _ => by
    show ys.foldl min y ∈ y :: ys
    rcases foldl_min_mem ys y with hc | hc
    · rw [hc]
      exact List.mem_cons_self y ys
    · exact List.mem_cons_of_mem y hc

theorem getD_argminIdx {α : Type} [LinearOrderedField α] (l : List α) (h : l ≠ []) :
    l.getD (argminIdx l) 0 = nanmin l := by
  have hex : ∃ x ∈ l, (fun x => decide (x = nanmin l)) x = true :=
    ⟨nanmin l, nanmin_mem l h, by simp⟩
  have hlt : (l.findIdx fun x => decide (x = nanmin l)) < l.length :=
    List.findIdx_lt_length.mpr hex
  have hp := List.findIdx_getElem (w := hlt)
  rw [argminIdx, List.getD_eq_getElem _ _ hlt]
  simpa using hp

theorem map_getD_range_eq {α : Type} (l : List α) (d : α) :
    (List.range l.length).map (fun t => l.getD t d) = l := by
  apply List.ext_getElem (by simp)
  intro t h1 h2
  rw [List.getElem_map, List.getElem_range, List.getD_eq_getElem _ _ h2]

theorem argsort_perm {α : Type} [LinearOrderedField α] (l : List α) :
    (argsort l).Perm (List.range l.length) :=
  List.perm_insertionSort _ _

theorem argsort_length {α : Type} [LinearOrderedField α] (l : List α) :
    (argsort l).length = l.length :=
  (argsort_perm l).length_eq.trans (List.length_range _)

theorem argsort_nodup {α : Type} [LinearOrderedField α] (l : List α) :
    (argsort l).Nodup :=
  (argsort_perm l).nodup_iff.mpr (List.nodup_range _)

theorem argsort_mem_lt {α : Type} [LinearOrderedField α] (l : List α) {x : ℕ}
    (hx : x ∈ argsort l) : x < l.length :=
  List.mem_range.mp ((argsort_perm l).mem_iff.mp hx)

theorem argsort_getD_lt {α : Type} [LinearOrderedField α] (l : List α) {j : ℕ}
    (hj : j < (argsort l).length) : (argsort l).getD j 0 < l.length := by
  rw [List.getD_eq_getElem _ _ hj]
  exact argsort_mem_lt l (List.getElem_mem hj)

theorem argsort_sorted {α : Type} [LinearOrderedField α] (l : List α) :
    (argsort l).Sorted (argsortRel l) :=
  List.sorted_insertionSort _ _

theorem argsort_rel_of_lt {α : Type} [LinearOrderedField α] (l : List α) {a b : ℕ}
    (hab : a < b) (hb : b < (argsort l).length) :
    argsortRel l ((argsort l).getD a 0) ((argsort l).getD b 0) := by
  have hp := List.pairwise_iff_getElem.mp (argsort_sorted l) a b (lt_trans hab hb) hb hab
  rwa [List.getD_eq_getElem _ _ (lt_trans hab hb), List.getD_eq_getElem _ _ hb]

theorem argsort_fitness_mono {α : Type} [LinearOrderedField α] (l : List α) {a b : ℕ}
    (hab : a < b) (hb : b < (argsort l).length) :
    l.getD ((argsort l).getD a 0) 0 ≤ l.getD ((argsort l).getD b 0) 0 := by
  rcases argsort_rel_of_lt l hab hb with h | ⟨h, _⟩
  · exact le_of_lt h
  · exact le_of_eq h

theorem argsort_value_lt_iff {α : Type} [LinearOrderedField α] (l : List α)
    (hnd : l.Nodup) {a b : ℕ} (ha : a < (argsort l).length)
    (hb : b < (argsort l).length) :
    (l.getD ((argsort l).getD a 0) 0 < l.getD ((argsort l).getD b 0) 0 ↔ a < b) := by
  constructor
  · intro hv
    by_contra hab
    push_neg at hab
    rcases eq_or_lt_of_le hab with heq | hlt
    · rw [heq] at hv
      exact lt_irrefl _ hv
    · exact absurd (lt_of_le_of_lt (argsort_fitness_mono l hlt ha) hv) (lt_irrefl _)
  · intro hab
    rcases argsort_rel_of_lt l hab hb with h | ⟨h, _⟩
    · exact h
    · exfalso
      have hga := argsort_getD_lt l ha
      have hgb := argsort_getD_lt l hb
      rw [List.getD_eq_getElem _ _ hga, List.getD_eq_getElem _ _ hgb] at h
      have hidx : (argsort l).getD a 0 = (argsort l).getD b 0 :=
        (hnd.getElem_inj_iff).mp h
      rw [List.getD_eq_getElem _ _ ha, List.getD_eq_getElem _ _ hb] at hidx
      exact absurd ((argsort_nodup l).getElem_inj_iff.mp hidx) (Nat.ne_of_lt hab)

theorem scatterSet_cons (base : List ℕ) (a v : ℕ) (as vs : List ℕ) :
    scatterSet base (a :: as) (v :: vs) = scatterSet (base.set a v) as vs := rfl

theorem scatterSet_length : ∀ (idxs vals base : List ℕ),
    (scatterSet base idxs vals).length = base.length
  | [], _, _ => rfl
  | _ :: _, [], _ => rfl
  | a :: as, v :: vs, base => by
    rw [scatterSet_cons, scatterSet_length as vs (base.set a v), List.length_set]

theorem getD_set_ne (base : List ℕ) (a v m : ℕ) (h : m ≠ a) :
    (base.set a v).getD m 0 = base.getD m 0 := by
  by_cases hm : m < base.length
  · rw [List.getD_eq_getElem _ _ (by simpa using hm), List.getD_eq_getElem _ _ hm]
    exact List.getElem_set_ne (Ne.symm h) _
  · rw [List.getD_eq_getElem?_getD, List.getD_eq_getElem?_getD,
      List.getElem?_eq_none (by simpa using le_of_not_lt hm),
      List.getElem?_eq_none (le_of_not_lt hm)]

theorem getD_set_self (base : List ℕ) (a v : ℕ) (h : a < base.length) :
    (base.set a v).getD a 0 = v := by
  rw [List.getD_eq_getElem _ _ (by simpa using h)]
  exact List.getElem_set_self _

theorem scatterSet_getD_of_not_mem : ∀ (idxs vals base : List ℕ) (m : ℕ),
    m ∉ idxs → (scatterSet base idxs vals).getD m 0 = base.getD m 0
  | [], _, _, _, _ => rfl
  | _ :: _, [], _, _, _ => rfl
  | a :: as, v :: vs, base, m, hm => by
    have hma : m ≠ a := fun h => hm (h ▸ List.mem_cons_self a as)
    have hmas : m ∉ as := fun h => hm (List.mem_cons_of_mem a h)
    rw [scatterSet_cons, scatterSet_getD_of_not_mem as vs (base.set a v) m hmas,
      getD_set_ne base a v m hma]

theorem scatterSet_getD_self : ∀ (idxs vals base : List ℕ), idxs.Nodup →
    ∀ j, j < idxs.length → j < vals.length → idxs.getD j 0 < base.length →
      (scatterSet base idxs vals).getD (idxs.getD j 0) 0 = vals.getD j 0
  | [], _, _, _, j, hj, _, _ => absurd hj (by simp)
  | _ :: _, [], _, _, j, _, hv, _ => absurd hv (by simp)
  | a :: as, v :: vs, base, hnd, 0, _, _, hb => by
    rw [scatterSet_cons]
    show (scatterSet (base.set a v) as vs).getD a 0 = v
    rw [scatterSet_getD_of_not_mem as vs (base.set a v) a (List.nodup_cons.mp hnd).1,
      getD_set_self base a v hb]
  | a :: as, v :: vs, base, hnd, j + 1, hj, hv, hb => by
    rw [scatterSet_cons]
    show (scatterSet (base.set a v) as vs).getD (as.getD j 0) 0 = vs.getD j 0
    exact scatterSet_getD_self as vs (base.set a v) (List.nodup_cons.mp hnd).2 j
      (by simpa using hj) (by simpa using hv) (by rw [List.length_set]; simpa using hb)

theorem ranksort_length {α : Type} [LinearOrderedField α] (l : List α) :
    (ranksort l).length = l.length := by
  unfold ranksort
  rw [scatterSet_length, argsort_length]

theorem ranksort_getD_argsort {α : Type} [LinearOrderedField α] (l : List α) (j : ℕ)
    (hj : j < (argsort l).length) :
    (ranksort l).getD ((argsort l).getD j 0) 0 = j := by
  unfold ranksort
  rw [scatterSet_getD_self (argsort l) (List.range l.length) (argsort l)
    (argsort_nodup l) j hj (by rw [List.length_range, ← argsort_length l]; exact hj)
    (by rw [argsort_length]; exact argsort_getD_lt l hj)]
  rw [List.getD_eq_getElem _ _ (by rw [List.length_range, ← argsort_length l]; exact hj),
    List.getElem_range]

theorem countP_range_lt (n j : ℕ) (hj : j ≤ n) :
    (List.range n).countP (fun t => decide (t < j)) = j := by
  induction n with
  | zero =>
    have hj0 : j = 0 := Nat.le_zero.mp hj
    subst hj0
    rfl
  | succ n ih =>
    rw [List.range_succ, List.countP_append]
    rcases Nat.lt_or_ge n j with h | h
    · have hje : j = n + 1 := le_antisymm hj h
      subst hje
      have hall : (List.range n).countP (fun t => decide (t < n + 1)) = n :=
        (List.countP_eq_length.mpr (fun a ha => by
          simpa using Nat.lt_succ_of_lt (List.mem_range.mp ha))).trans
          (List.length_range n)
      simp [hall, List.countP_cons, List.countP_nil]
    · rw [ih h]
      have hn : ¬ (n < j) := Nat.not_lt.mpr h
      simp [List.countP_cons, List.countP_nil, hn]

theorem countP_lt_argsort {α : Type} [LinearOrderedField α] (l : List α)
    (hnd : l.Nodup) (j : ℕ) (hj : j < (argsort l).length) :
    l.countP (fun x => decide (x < l.getD ((argsort l).getD j 0) 0)) = j := by
  set p : α → Bool := fun x => decide (x < l.getD ((argsort l).getD j 0) 0) with hp
  have h1 : l.countP p = ((List.range l.length).map (fun t => l.getD t 0)).countP p := by
    rw [map_getD_range_eq]
  rw [h1, List.countP_map]
  have h2 : (List.range l.length).countP (p ∘ fun t => l.getD t 0)
      = (argsort l).countP (p ∘ fun t => l.getD t 0) :=
    ((argsort_perm l).countP_eq _).symm
  rw [h2]
  have h3 : argsort l = (List.range (argsort l).length).map (fun t => (argsort l).getD t 0) :=
    (map_getD_range_eq (argsort l) 0).symm
  conv_lhs => rw [h3]
  rw [List.countP_map]
  have h4 : ∀ t ∈ List.range (argsort l).length,
      (((p ∘ fun s => l.getD s 0) ∘ fun t => (argsort l).getD t 0) t = true
        ↔ (fun t => decide (t < j)) t = true) := by
    intro t ht
    have htl := List.mem_range.mp ht
    simp only [Function.comp_apply, hp, decide_eq_true_eq]
    exact argsort_value_lt_iff l hnd htl hj
  rw [List.countP_congr h4, argsort_length]
  rw [argsort_length] at hj
  exact countP_range_lt l.length j (le_of_lt hj)

theorem ranksort_getD {α : Type} [LinearOrderedField α] (l : List α)
    (hnd : l.Nodup) (i : ℕ) (hi : i < l.length) :
    (ranksort l).getD i 0 = l.countP (fun x => decide (x < l.getD i 0)) := by
  have hmem : i ∈ argsort l :=
    (argsort_perm l).mem_iff.mpr (List.mem_range.mpr hi)
  obtain ⟨j, hj, hji⟩ := List.mem_iff_getElem.mp hmem
  have hgd : (argsort l).getD j 0 = i := by
    rw [List.getD_eq_getElem _ _ hj, hji]
  rw [← hgd, ranksort_getD_argsort l j hj, countP_lt_argsort l hnd j hj]

theorem ranksort_perm_range {α : Type} [LinearOrderedField α] (l : List α) :
    (ranksort l).Perm (List.range l.length) := by
  have hlen : (ranksort l).length = l.length := ranksort_length l
  have h1 : ranksort l
      = (List.range l.length).map (fun t => (ranksort l).getD t 0) := by
    conv_lhs => rw [← map_getD_range_eq (ranksort l) 0]
    rw [hlen]
  have h2 : ((List.range l.length).map (fun t => (ranksort l).getD t 0)).Perm
      ((argsort l).map (fun t => (ranksort l).getD t 0)) :=
    List.Perm.map _ (argsort_perm l).symm
  have h3 : (argsort l).map (fun t => (ranksort l).getD t 0) = List.range l.length := by
    apply List.ext_getElem (by rw [List.length_map, argsort_length, List.length_range])
    intro t h1' h2'
    rw [List.getElem_map, List.getElem_range]
    have ht : t < (argsort l).length := by simpa using h1'
    rw [← List.getD_eq_getElem (argsort l) 0 ht]
    exact ranksort_getD_argsort l t ht
  rw [h1]
  exact h2.trans (h3 ▸ List.Perm.refl _)

theorem centered_rank_trafo_getD {α : Type} [LinearOrderedField α] (f : List α)
    (hnd : f.Nodup) (i : ℕ) (hi : i < f.length) :
    (centered_rank_trafo f).getD i 0
      = (f.countP (fun x => decide (x < f.getD i 0)) : α)
          / (((f.length : ℤ) - 1 : ℤ) : α) - 1 / 2 := by
  have hρ : i < (ranksort f).length := by rw [ranksort_length]; exact hi
  have hc : i < ((ranksort f).map
      (fun r : ℕ => (r : α) / (((f.length : ℤ) - 1 : ℤ) : α) - 1 / 2)).length := by
    rw [List.length_map]
    exact hρ
  show (((ranksort f).map
      (fun r : ℕ => (r : α) / (((f.length : ℤ) - 1 : ℤ) : α) - 1 / 2)).getD i 0) = _
  rw [List.getD_eq_getElem _ _ hc, List.getElem_map,
    ← List.getD_eq_getElem (ranksort f) 0 hρ, ranksort_getD f hnd i hi]

theorem findIdx_le_of_getElem {α : Type} {p : α → Bool} {l : List α} {i : ℕ}
    (hi : i < l.length) (hp : p l[i] = true) : l.findIdx p ≤ i := by
  by_contra hlt
  push_neg at hlt
  have hfalse := List.not_of_lt_findIdx hlt
  rw [hp] at hfalse
  simp at hfalse

theorem cumsum_getD {α : Type} [LinearOrderedField α] (l : List α) (i : ℕ)
    (hi : i < l.length) : (cumsum l).getD i 0 = (l.take (i + 1)).sum := by
  unfold cumsum
  rw [List.getD_eq_getElem _ _ (by simpa using hi), List.getElem_map, List.getElem_range]

theorem cumsum_length {α : Type} [LinearOrderedField α] (l : List α) :
    (cumsum l).length = l.length := by
  unfold cumsum
  rw [List.length_map, List.length_range]

theorem eliteMask_take {α : Type} [LinearOrderedField α] (n k : ℕ) (hkn : k ≤ n) :
    ((List.range n).map (fun i => if i < k then (1 : α) else 0)).take k
      = List.replicate k (1 : α) := by
  rw [← List.map_take, List.take_range, min_eq_left hkn,
    List.map_congr_left (fun a ha => if_pos (List.mem_range.mp ha))]
  have hconst : (List.range k).map (fun _ : ℕ => (1 : α))
      = List.replicate (List.range k).length (1 : α) := List.map_const _ _
  rw [hconst, List.length_range]

theorem eliteMask_sum {α : Type} [LinearOrderedField α] (n k : ℕ) (hkn : k ≤ n) :
    ((List.range n).map (fun i => if i < k then (1 : α) else 0)).sum = k := by
  have hsplit : n = k + (n - k) := by omega
  rw [hsplit, List.range_add, List.map_append, List.sum_append]
  have h1 : (List.range k).map (fun i => if i < k then (1 : α) else 0)
      = List.replicate k (1 : α) := by
    rw [List.map_congr_left (fun a ha => if_pos (List.mem_range.mp ha))]
    have hconst : (List.range k).map (fun _ : ℕ => (1 : α))
        = List.replicate (List.range k).length (1 : α) := List.map_const _ _
    rw [hconst, List.length_range]
  have h2 : ((List.range (n - k)).map (fun x => k + x)).map
      (fun i => if i < k then (1 : α) else 0) = List.replicate (n - k) (0 : α) := by
    rw [List.map_map,
      List.map_congr_left (fun a _ => by
        simp only [Function.comp_apply]
        exact if_neg (by omega : ¬ k + a < k))]
    have hconst : (List.range (n - k)).map (fun _ : ℕ => (0 : α))
        = List.replicate (List.range (n - k)).length (0 : α) := List.map_const _ _
    rw [hconst, List.length_range]
  rw [h1, h2, List.sum_replicate, List.sum_replicate]
  simp

theorem choiceIndex_eliteMask_lt {α : Type} [LinearOrderedField α] (n k : ℕ) (u : α)
    (hk : 0 < k) (hkn : k ≤ n) (hu1 : u < 1) :
    choiceIndex ((List.range n).map (fun i => if i < k then (1 : α) else 0)) u < k := by
  set w : List α := (List.range n).map (fun i => if i < k then (1 : α) else 0) with hw
  have hwlen : w.length = n := by rw [hw, List.length_map, List.length_range]
  have hwsum : w.sum = k := eliteMask_sum n k hkn
  set nw : List α := w.map (fun x => x / w.sum) with hnw
  have hnwlen : nw.length = n := by rw [hnw, List.length_map, hwlen]
  have hkpos : (0 : α) < k := by exact_mod_cast hk
  have htake : nw.take k = List.replicate k ((1 : α) / k) := by
    rw [hnw, ← List.map_take, hw, eliteMask_take n k hkn, List.map_replicate, ← hw, hwsum]
  have hsum1 : (nw.take k).sum = 1 := by
    rw [htake, List.sum_replicate, nsmul_eq_mul, mul_one_div, div_self (ne_of_gt hkpos)]
  have hk1 : k - 1 < (cumsum nw).length := by
    rw [cumsum_length, hnwlen]
    omega
  have hval : (cumsum nw)[k - 1] = 1 := by
    rw [← List.getD_eq_getElem (cumsum nw) 0 hk1,
      cumsum_getD nw (k - 1) (by rw [hnwlen]; omega),
      show k - 1 + 1 = k by omega, hsum1]
  have hfind : (cumsum nw).findIdx (fun c => decide (u < c)) ≤ k - 1 :=
    findIdx_le_of_getElem hk1 (by rw [hval]; simpa using hu1)
  show (cumsum nw).findIdx (fun c => decide (u < c)) < k
  omega

theorem crossover_cons (u p1 p2 : ℚ) (us p1s p2s : List ℚ) (r : ℚ) :
    crossover (u :: us) (p1 :: p1s) (p2 :: p2s) r
      = (p1 * (1 - (if u < r then (1 : ℚ) else 0)) + p2 * (if u < r then (1 : ℚ) else 0))
          :: crossover us p1s p2s r := rfl

theorem crossover_zero : ∀ (uniforms parent_1 parent_2 : List ℚ),
    (∀ u ∈ uniforms, 0 ≤ u) → uniforms.length = parent_1.length →
    parent_1.length = parent_2.length →
    crossover uniforms parent_1 parent_2 0 = parent_1
  | [], [], [], _, _, _ => rfl
  | [], [], _ :: _, _, _, hl2 => by simp at hl2
  | [], _ :: _, _, _, hl1, _ => by simp at hl1
  | _ :: _, [], _, _, hl1, _ => by simp at hl1
  | _ :: _, _ :: _, [], _, _, hl2 => by simp at hl2
  | u :: us, p1 :: p1s, p2 :: p2s, hpos, hl1, hl2 => by
    rw [crossover_cons,
      crossover_zero us p1s p2s (fun v hv => hpos v (List.mem_cons_of_mem u hv))
        (by simpa using hl1) (by simpa using hl2)]
    have hu : ¬ (u < (0 : ℚ)) := not_lt_of_le (hpos u (List.mem_cons_self u us))
    simp [if_neg hu]

theorem zipWith3_crossover_zero : ∀ (cus p1s p2s : List (List ℚ)),
    (∀ row ∈ cus, ∀ u ∈ row, 0 ≤ u) →
    (∀ j : ℕ, (cus.getD j []).length = (p1s.getD j []).length
      ∧ (p1s.getD j []).length = (p2s.getD j []).length) →
    cus.length = p1s.length → p1s.length = p2s.length →
    zipWith3 (fun cu p1 p2 => crossover cu p1 p2 0) cus p1s p2s = p1s
  | [], [], [], _, _, _, _ => rfl
  | [], [], _ :: _, _, _, _, hl2 => by simp at hl2
  | [], _ :: _, _, _, _, hl1, _ => by simp at hl1
  | _ :: _, [], _, _, _, hl1, _ => by simp at hl1
  | _ :: _, _ :: _, [], _, _, _, hl2 => by simp at hl2
  | cu :: cus, p1 :: p1s, p2 :: p2s, hpos, hlen, hl1, hl2 => by
    have h0 := hlen 0
    simp only [List.getD_cons_zero] at h0
    show crossover cu p1 p2 0 :: zipWith3 _ cus p1s p2s = p1 :: p1s
    rw [crossover_zero cu p1 p2 (hpos cu (List.mem_cons_self _ _)) h0.1 h0.2,
      zipWith3_crossover_zero cus p1s p2s
        (fun row hr => hpos row (List.mem_cons_of_mem _ hr))
        (fun j => by simpa using hlen (j + 1))
        (by simpa using hl1) (by simpa using hl2)]

theorem getD_map_lt {α β : Type} (g : α → β) (l : List α) (d : β) (j : ℕ)
    (hj : j < l.length) : (l.map g).getD j d = g l[j] := by
  rw [List.getD_eq_getElem _ _ (by simpa using hj), List.getElem_map]

/-! ## Claim theorems -/

/-- C6: `SimAnneal._tell` always returns
`std' = max(std * std_decay, std_limit)` and
`temperature' = max(temperature * temperature_decay, temperature_limit)`,
independently of the Metropolis acceptance, so `std' ≥ std_limit` and
`temperature' ≥ temperature_limit` always hold after `tell`. -/
theorem simAnneal_tell_decays (acceptance : ℝ) (population : List (List ℝ))
    (fitness : List ℝ) (state : SAState) (params : SAParams) :
    (SimAnneal.tell acceptance population fitness state params).std
        = max (state.std * params.std_decay) params.std_limit ∧
      (SimAnneal.tell acceptance population fitness state params).temperature
        = max (state.temperature * params.temperature_decay) params.temperature_limit ∧
      params.std_limit ≤ (SimAnneal.tell acceptance population fitness state params).std ∧
      params.temperature_limit
        ≤ (SimAnneal.tell acceptance population fitness state params).temperature :=
  ⟨rfl, rfl, le_max_right _ _, le_max_right _ _⟩

/-- C7: `SimpleGA._tell` stores the given population and fitness unmodified,
sets `std' = max(std * std_decay, std_limit)`, and nothing else it returns
depends on the fitness values (replacing the fitness argument changes only the
stored `fitness` field). -/
theorem simpleGA_tell_stores (population : List (List ℚ)) (fitness fitness' : List ℚ)
    (state : GAState) (params : GAParams) :
    (SimpleGA.tell population fitness state params).population = population ∧
      (SimpleGA.tell population fitness state params).fitness = fitness ∧
      (SimpleGA.tell population fitness state params).std
        = max (state.std * params.std_decay) params.std_limit ∧
      SimpleGA.tell population fitness state params
        = { SimpleGA.tell population fitness' state params with fitness := fitness } :=
  ⟨rfl, rfl, rfl, rfl⟩

/-- C9: for both strategies, `_ask` returns the input state itself with every
field unchanged, so any number of `ask` calls with any draws leaves the state
identical. -/
theorem ask_returns_state_unchanged (population_size : ℕ) (elite_ratio : ℚ)
    (draws : GAAskDraws) (gstate : GAState) (gparams : GAParams)
    (z : List (List ℝ)) (sstate : SAState) (sparams : SAParams) (n m : ℕ) :
    (SimpleGA.ask population_size elite_ratio draws gstate gparams).2 = gstate ∧
      (SimAnneal.ask z sstate sparams).2 = sstate ∧
      (fun s => (SimpleGA.ask population_size elite_ratio draws s gparams).2)^[n] gstate
        = gstate ∧
      (fun s => (SimAnneal.ask z s sparams).2)^[m] sstate = sstate :=
  ⟨rfl, rfl, Function.iterate_fixed rfl n, Function.iterate_fixed rfl m⟩

/-- C5: constructing a `FitnessShaper` (with no overriding `fitness_trafo`
selector) fails exactly when more than one of the three transform booleans is
enabled, and otherwise succeeds with those booleans stored. -/
theorem fitnessShaper_make_exclusive (b1 b2 b3 : Bool) (w : ℝ) (m : Bool) :
    (FitnessShaper.make b1 b2 b3 w m none).isOk
        = decide (b1.toNat + b2.toNat + b3.toNat < 2) ∧
      FitnessShaper.make b1 b2 b3 w m none
        = if b1.toNat + b2.toNat + b3.toNat < 2
            then Except.ok ⟨b1, b2, b3, w, m⟩
            else Except.error "Only use one fitness shaping transformation." := by
  cases b1 <;> cases b2 <;> cases b3 <;>
    simp [FitnessShaper.make, Except.isOk, Except.toBool]

/-- C10: when `fitness_trafo` is one of the four recognised selector strings,
the three boolean arguments are ignored entirely — the stored flags depend on
the string alone and construction always succeeds (even with several booleans
simultaneously true). -/
theorem fitnessShaper_make_trafo_overrides (b1 b2 b3 : Bool) (w : ℝ) (m : Bool)
    (s : String) (hs : s ∈ ["centered_rank", "z_score", "norm_range", "raw"]) :
    FitnessShaper.make b1 b2 b3 w m (some s)
      = Except.ok ⟨s == "centered_rank", s == "z_score", s == "norm_range", w, m⟩ := by
  fin_cases hs <;> rfl

/-- Witness for C10: `FitnessShaper(centered_rank=True, z_score=True,
fitness_trafo="raw")` constructs successfully with no transform enabled. -/
theorem fitnessShaper_make_trafo_overrides_witness :
    FitnessShaper.make true true true 0 false (some "raw")
      = Except.ok ⟨false, false, false, 0, false⟩ := by
  simpa using fitnessShaper_make_trafo_overrides true true true 0 false "raw" (by decide)

/-- C8: `norm_diff_best` fails on every input — its denominator applies
`jnp.nanmin` to the bound method `diff_best.min` instead of the array — so
`FitnessFeatures.apply` errors whenever `diff_best` is enabled, instead of
producing the best-difference column the spec describes. -/
theorem fitnessFeatures_diff_best_crashes :
    (∀ (fitness : List ℝ) (best_fitness : ℝ),
        norm_diff_best fitness best_fitness
          = Except.error
              "TypeError: nanmin requires ndarray or scalar arguments, got a bound method") ∧
      FitnessFeatures.apply ⟨false, false, 0, true, false, false⟩ [[1], [2]] [1, 2] 0
        = Except.error
            "TypeError: nanmin requires ndarray or scalar arguments, got a bound method" :=
  ⟨fun _ _ => rfl, rfl⟩

/-- C1: `SimAnneal._tell` replaces the incumbent solution/fitness if and only
if `delta < 0` or the uniform draw is below
`exp(-delta / (boltzmann_constant * temperature))`; in particular, when
`delta < 0` the replacement happens for every draw, and what is installed is
the generation's best member and its fitness (the minimum over the given
fitness vector). -/
theorem simAnneal_tell_metropolis (acceptance : ℝ) (population : List (List ℝ))
    (fitness : List ℝ) (state : SAState) (params : SAParams) (hne : fitness ≠ []) :
    ((SimAnneal.tell acceptance population fitness state params).current_solution
        = if fitness.getD (argminIdx fitness) 0 - state.current_fitness < 0 ∨
              acceptance < Real.exp
                (-(fitness.getD (argminIdx fitness) 0 - state.current_fitness) /
                  (params.boltzmann_constant * state.temperature))
            then population.getD (argminIdx fitness) []
            else state.current_solution) ∧
      ((SimAnneal.tell acceptance population fitness state params).current_fitness
        = if fitness.getD (argminIdx fitness) 0 - state.current_fitness < 0 ∨
              acceptance < Real.exp
                (-(fitness.getD (argminIdx fitness) 0 - state.current_fitness) /
                  (params.boltzmann_constant * state.temperature))
            then fitness.getD (argminIdx fitness) 0
            else state.current_fitness) ∧
      (fitness.getD (argminIdx fitness) 0 - state.current_fitness < 0 →
        (SimAnneal.tell acceptance population fitness state params).current_solution
            = population.getD (argminIdx fitness) [] ∧
          (SimAnneal.tell acceptance population fitness state params).current_fitness
            = fitness.getD (argminIdx fitness) 0) ∧
      ∀ x ∈ fitness, fitness.getD (argminIdx fitness) 0 ≤ x := by
  refine ⟨rfl, rfl, fun hδ => ⟨?_, ?_⟩, fun x hx => ?_⟩
  · show (if _ ∨ _ then _ else _) = _
    exact if_pos (Or.inl hδ)
  · show (if _ ∨ _ then _ else _) = _
    exact if_pos (Or.inl hδ)
  · rw [getD_argminIdx fitness hne]
    exact nanmin_le fitness x hx

/-- Witness for C1 at a concrete input: fitness `[5, 7]` against incumbent
fitness `10` has `delta = -5 < 0`, so the conclusion applies. -/
theorem simAnneal_tell_metropolis_witness :
    (([5, 7] : List ℝ) ≠ []) ∧
      ((SimAnneal.tell 0 [[1], [2]] [5, 7] ⟨[0], 10, 1, 1⟩
            ⟨1, 1, 0, 1, 0, 1, 5⟩).current_solution
          = if ([5, 7] : List ℝ).getD (argminIdx ([5, 7] : List ℝ)) 0 - 10 < 0 ∨
              (0 : ℝ) < Real.exp
                (-(([5, 7] : List ℝ).getD (argminIdx ([5, 7] : List ℝ)) 0 - 10) / (5 * 1))
              then ([[1], [2]] : List (List ℝ)).getD (argminIdx ([5, 7] : List ℝ)) []
              else [0]) := by
  exact ⟨by simp, (simAnneal_tell_metropolis 0 [[1], [2]] [5, 7] ⟨[0], 10, 1, 1⟩
    ⟨1, 1, 0, 1, 0, 1, 5⟩ (by simp)).1⟩

/-- C3: `FitnessShaper.apply` is exactly the composition of the three spec
steps in order — negate if maximizing, then the `w_decay` penalty, then the
single enabled transform (the hypothesis of at most one enabled flag is what
every constructed shaper satisfies). -/
theorem fitnessShaper_apply_pipeline (s : FitnessShaper)
    (population : List (List ℝ)) (fitness : List ℝ)
    (h : s.centered_rank.toNat + s.z_score.toNat + s.norm_range.toNat ≤ 1) :
    s.apply population fitness
      = shaperStep3 s (shaperStep2 s.w_decay population (shaperStep1 s.maximize fitness)) := by
  obtain ⟨cr, zs, nr, w, mx⟩ := s
  cases cr <;> cases zs <;> cases nr <;>
    simp_all [FitnessShaper.apply, shaperStep1, shaperStep2, shaperStep3]

/-- Witness for C3 at a concrete shaper and input. -/
theorem fitnessShaper_apply_pipeline_witness :
    FitnessShaper.apply ⟨true, false, false, 0, false⟩ [[1]] [1, 2]
      = shaperStep3 ⟨true, false, false, 0, false⟩
          (shaperStep2 0 [[1]] (shaperStep1 false [1, 2])) :=
  fitnessShaper_apply_pipeline ⟨true, false, false, 0, false⟩ [[1]] [1, 2] (by decide)

/-- C4: for a fitness vector of size `N ≥ 2` with pairwise distinct values,
the centered-rank transform outputs exactly `rank/(N-1) - 0.5`, where `rank`
is the number of strictly smaller values — the 0-based position in ascending
sorted order; the outputs are a permutation of `{0, …, N-1}` scaled to
`[-0.5, 0.5]`; the member with the lowest fitness maps to `-0.5` and the one
with the highest fitness maps to `+0.5`. -/
theorem centered_rank_trafo_spec {α : Type} [LinearOrderedField α] (f : List α)
    (hN : 2 ≤ f.length) (hnd : f.Nodup) :
    (∀ i, i < f.length →
        (centered_rank_trafo f).getD i 0
          = (f.countP (fun x => decide (x < f.getD i 0)) : α)
              / (((f.length : ℤ) - 1 : ℤ) : α) - 1 / 2) ∧
      (centered_rank_trafo f).Perm
        ((List.range f.length).map
          (fun r : ℕ => (r : α) / (((f.length : ℤ) - 1 : ℤ) : α) - 1 / 2)) ∧
      (∀ i, i < f.length → (∀ x ∈ f, f.getD i 0 ≤ x) →
        (centered_rank_trafo f).getD i 0 = -(1 / 2)) ∧
      (∀ i, i < f.length → (∀ x ∈ f, x ≤ f.getD i 0) →
        (centered_rank_trafo f).getD i 0 = 1 / 2) := by
  have hcast : (((f.length : ℤ) - 1 : ℤ) : α) = (f.length : α) - 1 := by
    push_cast
    ring
  have hpos : (0 : α) < (f.length : α) - 1 := by
    have h2 : (2 : α) ≤ (f.length : α) := by exact_mod_cast hN
    linarith
  refine ⟨fun i hi => centered_rank_trafo_getD f hnd i hi,
    List.Perm.map _ (ranksort_perm_range f), fun i hi hmin => ?_, fun i hi hmax => ?_⟩
  · rw [centered_rank_trafo_getD f hnd i hi]
    have hcnt : f.countP (fun x => decide (x < f.getD i 0)) = 0 :=
      List.countP_eq_zero.mpr (fun a ha => by
        simpa using not_lt_of_le (hmin a ha))
    rw [hcnt]
    rw [Nat.cast_zero, zero_div, zero_sub]
  · rw [centered_rank_trafo_getD f hnd i hi]
    have hmem : f.getD i 0 ∈ f := by
      rw [List.getD_eq_getElem _ _ hi]
      exact List.getElem_mem hi
    have hone : f.countP (fun x => decide (¬ x < f.getD i 0)) = 1 := by
      have hbridge : f.countP (fun x => decide (¬ x < f.getD i 0))
          = f.countP (fun x => decide (x = f.getD i 0)) := by
        apply List.countP_congr
        intro x hx
        simp only [decide_eq_true_eq]
        constructor
        · intro hnlt
          exact le_antisymm (hmax x hx) (le_of_not_lt hnlt)
        · intro he
          rw [he]
          exact lt_irrefl _
      rw [hbridge]
      have hcq : f.count (f.getD i 0) = f.countP (fun x => decide (x = f.getD i 0)) := by
        rw [List.count_eq_countP]
        apply List.countP_congr
        intro x _
        simp [beq_iff_eq]
      rw [← hcq]
      exact List.count_eq_one_of_mem hnd hmem
    have hsplit : f.length = f.countP (fun x => decide (x < f.getD i 0))
        + f.countP (fun x => decide (¬ x < f.getD i 0)) := by
      rw [List.length_eq_countP_add_countP (fun x => decide (x < f.getD i 0)) f]
      congr 1
      apply List.countP_congr
      intro x _
      simp
    have hcnt : f.countP (fun x => decide (x < f.getD i 0)) = f.length - 1 := by
      omega
    rw [hcnt]
    have hcast2 : ((f.length - 1 : ℕ) : α) = (f.length : α) - 1 := by
      have hc : ((f.length - 1 : ℕ) : α) = (f.length : α) - ((1 : ℕ) : α) :=
        Nat.cast_sub (le_trans one_le_two hN)
      simpa using hc
    rw [hcast2, hcast, div_self (ne_of_gt hpos)]
    norm_num

/-- C2: for `SimpleGA._ask` with `crossover_rate = 0` (and well-shaped draws,
with the parent-selection uniforms in `[0, 1)` as `jax.random.uniform`
produces), the returned population is exactly the first sampled parents plus
Gaussian noise scaled by `state.std` — every offspring before mutation equals
its first parent; every parent-selection draw (for either parent) picks an
index below `num_elites` into the fitness-sorted population, so non-elite
members are never selected; and the fitness-sorted order is ascending, so
those `num_elites` positions hold the members with the lowest fitness. -/
theorem simpleGA_ask_elitist (population_size : ℕ) (elite_ratio : ℚ)
    (draws : GAAskDraws) (state : GAState) (params : GAParams) (num_dims : ℕ)
    (hcr : params.crossover_rate = 0)
    (hk : 0 < numElites elite_ratio population_size)
    (hkn : numElites elite_ratio population_size ≤ population_size)
    (hfl : state.fitness.length = population_size)
    (hpl : state.population.length = population_size)
    (hmemdim : ∀ m ∈ state.population, m.length = num_dims)
    (hcu_len : draws.crossover_uniforms.length = population_size)
    (hcu_row : ∀ row ∈ draws.crossover_uniforms, row.length = num_dims)
    (hcu_pos : ∀ row ∈ draws.crossover_uniforms, ∀ u ∈ row, 0 ≤ u)
    (hp1_len : draws.parent_1_uniforms.length = population_size)
    (hp2_len : draws.parent_2_uniforms.length = population_size)
    (hp1_u : ∀ u ∈ draws.parent_1_uniforms, u < 1)
    (hp2_u : ∀ u ∈ draws.parent_2_uniforms, u < 1) :
    ((SimpleGA.ask population_size elite_ratio draws state params).1
        = List.zipWith (fun nrm par => mutation nrm par state.std)
            draws.mutation_normals
            (draws.parent_1_uniforms.map (fun u =>
              ((argsort state.fitness).map (fun i => state.population.getD i [])).getD
                (choiceIndex
                  ((List.range population_size).map
                    (fun i => if i < numElites elite_ratio population_size
                      then (1 : ℚ) else 0)) u)
                []))) ∧
      (∀ u, u ∈ draws.parent_1_uniforms ∨ u ∈ draws.parent_2_uniforms →
        choiceIndex
            ((List.range population_size).map
              (fun i => if i < numElites elite_ratio population_size
                then (1 : ℚ) else 0)) u
          < numElites elite_ratio population_size) ∧
      (∀ a b, a < b → b < (argsort state.fitness).length →
        state.fitness.getD ((argsort state.fitness).getD a 0) 0
          ≤ state.fitness.getD ((argsort state.fitness).getD b 0) 0) := by
  have hsp_entry : ∀ j, j < population_size →
      (((argsort state.fitness).map (fun i => state.population.getD i [])).getD j
        []).length = num_dims := by
    intro j hj
    have hjσ : j < (argsort state.fitness).length := by
      rw [argsort_length, hfl]
      exact hj
    rw [getD_map_lt _ _ _ j hjσ]
    have hidx : (argsort state.fitness)[j] < state.population.length := by
      rw [hpl, ← hfl]
      have hlt := argsort_getD_lt state.fitness hjσ
      rwa [List.getD_eq_getElem _ _ hjσ] at hlt
    rw [List.getD_eq_getElem _ _ hidx]
    exact hmemdim _ (List.getElem_mem hidx)
  refine ⟨?_, fun u hu => ?_, fun a b hab hb => ?_⟩
  · show List.zipWith (fun kk x => mutation kk x state.std) draws.mutation_normals
      (zipWith3
        (fun kk p1 p2 => crossover kk p1 p2 params.crossover_rate)
        draws.crossover_uniforms
        (draws.parent_1_uniforms.map (fun u =>
          ((argsort state.fitness).map (fun i => state.population.getD i [])).getD
            (choiceIndex
              ((List.range population_size).map
                (fun i => if i < numElites elite_ratio population_size
                  then (1 : ℚ) else 0)) u) []))
        (draws.parent_2_uniforms.map (fun u =>
          ((argsort state.fitness).map (fun i => state.population.getD i [])).getD
            (choiceIndex
              ((List.range population_size).map
                (fun i => if i < numElites elite_ratio population_size
                  then (1 : ℚ) else 0)) u) []))) = _
    rw [hcr]
    rw [zipWith3_crossover_zero _ _ _ hcu_pos ?hlenj ?hl1 ?hl2]
    case hl1 =>
      rw [hcu_len, List.length_map, hp1_len]
    case hl2 =>
      rw [List.length_map, List.length_map, hp1_len, hp2_len]
    case hlenj =>
      intro j
      rcases Nat.lt_or_ge j population_size with hj | hj
      · have hcuj : (draws.crossover_uniforms.getD j []).length = num_dims := by
          have hjc : j < draws.crossover_uniforms.length := by
            rw [hcu_len]
            exact hj
          rw [List.getD_eq_getElem _ _ hjc]
          exact hcu_row _ (List.getElem_mem hjc)
        have hj1 : j < draws.parent_1_uniforms.length := by
          rw [hp1_len]
          exact hj
        have hj2 : j < draws.parent_2_uniforms.length := by
          rw [hp2_len]
          exact hj
        have hp1j : ((draws.parent_1_uniforms.map (fun u =>
            ((argsort state.fitness).map (fun i => state.population.getD i [])).getD
              (choiceIndex
                ((List.range population_size).map
                  (fun i => if i < numElites elite_ratio population_size
                    then (1 : ℚ) else 0)) u) [])).getD j []).length = num_dims := by
          rw [getD_map_lt _ _ _ j hj1]
          exact hsp_entry _ (lt_of_lt_of_le
            (choiceIndex_eliteMask_lt population_size _ _ hk hkn
              (hp1_u _ (List.getElem_mem hj1))) hkn)
        have hp2j : ((draws.parent_2_uniforms.map (fun u =>
            ((argsort state.fitness).map (fun i => state.population.getD i [])).getD
              (choiceIndex
                ((List.range population_size).map
                  (fun i => if i < numElites elite_ratio population_size
                    then (1 : ℚ) else 0)) u) [])).getD j []).length = num_dims := by
          rw [getD_map_lt _ _ _ j hj2]
          exact hsp_entry _ (lt_of_lt_of_le
            (choiceIndex_eliteMask_lt population_size _ _ hk hkn
              (hp2_u _ (List.getElem_mem hj2))) hkn)
        rw [hcuj, hp1j, hp2j]
        exact ⟨rfl, rfl⟩
      · rw [List.getD_eq_default _ _ (by rw [hcu_len]; exact hj),
          List.getD_eq_default _ _ (by rw [List.length_map, hp1_len]; exact hj),
          List.getD_eq_default _ _ (by rw [List.length_map, hp2_len]; exact hj)]
        exact ⟨rfl, rfl⟩
  · rcases hu with h | h
    · exact choiceIndex_eliteMask_lt population_size _ u hk hkn (hp1_u u h)
    · exact choiceIndex_eliteMask_lt population_size _ u hk hkn (hp2_u u h)
  · exact argsort_fitness_mono state.fitness hab hb

/-- Witness for C2 at a concrete population of size 2: with `crossover_rate`
zero and parent draws in `[0, 1)`, every selection index stays below
`num_elites`. -/
theorem simpleGA_ask_elitist_witness :
    0 < numElites 1 2 ∧
      ∀ u, u ∈ ([0, 0] : List ℚ) ∨ u ∈ ([0, 0] : List ℚ) →
        choiceIndex
            ((List.range 2).map (fun i => if i < numElites 1 2 then (1 : ℚ) else 0)) u
          < numElites 1 2 :=
  ⟨by simp [numElites],
    (simpleGA_ask_elitist 2 1 ⟨[[0], [0]], [[0], [0]], [0, 0], [0, 0]⟩
      ⟨[[5], [7]], [3, 4], 1⟩ ⟨0, 1, 1, 0⟩ 1 rfl (by simp [numElites])
      (by simp [numElites]) rfl rfl (by decide) rfl (by decide) (by decide)
      rfl rfl (by decide) (by decide)).2.1⟩

/-- Witness for C4 at the concrete distinct fitness vector `[3, 1, 2]`. -/
theorem centered_rank_trafo_spec_witness :
    2 ≤ ([3, 1, 2] : List ℚ).length ∧ ([3, 1, 2] : List ℚ).Nodup ∧
      ((∀ i, i < ([3, 1, 2] : List ℚ).length →
          (centered_rank_trafo ([3, 1, 2] : List ℚ)).getD i 0
            = (([3, 1, 2] : List ℚ).countP
                  (fun x => decide (x < ([3, 1, 2] : List ℚ).getD i 0)) : ℚ)
                / (((([3, 1, 2] : List ℚ).length : ℤ) - 1 : ℤ) : ℚ) - 1 / 2) ∧
        (centered_rank_trafo ([3, 1, 2] : List ℚ)).Perm
          ((List.range ([3, 1, 2] : List ℚ).length).map
            (fun r : ℕ => (r : ℚ) / (((([3, 1, 2] : List ℚ).length : ℤ) - 1 : ℤ) : ℚ) - 1 / 2)) ∧
        (∀ i, i < ([3, 1, 2] : List ℚ).length →
          (∀ x ∈ ([3, 1, 2] : List ℚ), ([3, 1, 2] : List ℚ).getD i 0 ≤ x) →
          (centered_rank_trafo ([3, 1, 2] : List ℚ)).getD i 0 = -(1 / 2)) ∧
        (∀ i, i < ([3, 1, 2] : List ℚ).length →
          (∀ x ∈ ([3, 1, 2] : List ℚ), x ≤ ([3, 1, 2] : List ℚ).getD i 0) →
          (centered_rank_trafo ([3, 1, 2] : List ℚ)).getD i 0 = 1 / 2)) :=
  ⟨by decide, by decide, centered_rank_trafo_spec ([3, 1, 2] : List ℚ) (by decide) (by decide)⟩

end Evosax
